import Mathlib

/-!
Shallow embedding of the `cancomms` CAN/TCP bridge.

The repository has two source files:

* `src/frame.rs` — `CanFrameCodec`, a tokio-util `Encoder`/`Decoder` pair that
  serialises `socketcan::CanFrame` values onto a byte stream (4-byte big-endian
  id word, 1-byte length, then the payload bytes for data frames) and parses
  them back out of an accumulation buffer.
* `src/main.rs` — the bridge pump loop (`pump_frames`) that multiplexes the CAN
  socket and the TCP connection, and the `forward` driver.

Bytes are modelled as `Nat` values in `0..256`, `u32` values as `Nat < 2^32`.
Byte buffers are `List Nat`.  Rust panics (`todo!()`, out-of-bounds slice
indexing) are modelled as explicit `panicked` results.
-/

namespace Cancomms

/-- The C-level `can_frame` struct from socketcan: a 32-bit id word `can_id`
(bit 31 = extended-format flag, bit 30 = remote/RTR flag, bit 29 = error flag,
low 29 bits = identifier), a data-length code `can_dlc`, and an 8-byte data
array modelled as a `List Nat` of length 8. -/
structure can_frame where
  can_id : Nat
  can_dlc : Nat
  data : List Nat
deriving DecidableEq, Repr

/-- The `socketcan::CanFrame` enum: a tagged variant over data, remote and
error frames, each wrapping a raw `can_frame`. -/
inductive CanFrame
  | Data (f : can_frame)
  | Remote (f : can_frame)
  | Error (f : can_frame)
deriving DecidableEq, Repr

/-- Mirrors socketcan-rs `impl From<can_frame> for CanFrame`: classification of
a raw frame by its id-word flag bits, checking the error flag (bit 29,
`CAN_ERR_FLAG`) first, then the remote flag (bit 30, `CAN_RTR_FLAG`), else a
data frame. -/
def CanFrame.fromRaw (f : can_frame) : CanFrame :=
  if f.can_id.testBit 29 then .Error f
  else if f.can_id.testBit 30 then .Remote f
  else .Data f

/-- Mirrors the socketcan `Frame::is_extended` accessor: bit 31 of the id word
(`CAN_EFF_FLAG`). -/
def can_frame.extended (f : can_frame) : Bool := f.can_id.testBit 31

/-- Mirrors the socketcan `Frame::id()` accessor: the id word masked to the low
29 bits (`CAN_EFF_MASK`) for extended frames, or the low 11 bits
(`CAN_SFF_MASK`) for standard frames. -/
def can_frame.identifier (f : can_frame) : Nat :=
  if f.can_id.testBit 31 then f.can_id % 536870912 else f.can_id % 2048

/-- Big-endian byte decomposition of a `u32`, as written by `BufMut::put_u32`:
most significant byte first. -/
def u32be (x : Nat) : List Nat :=
  [x / 16777216 % 256, x / 65536 % 256, x / 256 % 256, x % 256]

/-- Big-endian `u32::from_be_bytes` over a byte list (used on exactly four
bytes, as in `decode`). -/
def beU32 (b : List Nat) : Nat := b.foldl (fun acc x => acc * 256 + x) 0

/-- Result of `CanFrameCodec::encode`.  The Rust method returns
`Result<(), io::Error>` while appending to `dst`; the `Error`-frame arm is
`todo!()`, which panics, modelled by `panicked`.  No arm ever returns `Err`. -/
inductive EncodeResult
  | ok (dst : List Nat)
  | panicked
deriving DecidableEq, Repr

/-- Mirrors `CanFrameCodec::encode` (src/frame.rs lines 12-39): for a data
frame append the id word big-endian, the length byte (`len as u8`, i.e. mod
256) and the `len` payload bytes (`d.data()` is `data[..can_dlc]`); for a
remote frame append the id word and the length byte only; for an error frame
the code is `todo!()` — a panic. -/
def encode (item : CanFrame) (dst : List Nat) : EncodeResult :=
  match item with
  | .Data d => .ok (dst ++ (u32be d.can_id ++ d.can_dlc % 256 :: d.data.take d.can_dlc))
  | .Remote r => .ok (dst ++ (u32be r.can_id ++ [r.can_dlc % 256]))
  | .Error _ => .panicked

/-- Result of `CanFrameCodec::decode`.  `noFrameYet` is `Ok(None)` and carries
the (unchanged) buffer contents; `frame` is `Ok(Some(f))` and carries the
remaining buffer after the consumed bytes were advanced past; `panicked`
models the out-of-bounds slice panic in `can_frame.data[..len]` when the
length byte exceeds the 8-byte data array. -/
inductive DecodeResult
  | noFrameYet (src : List Nat)
  | frame (f : CanFrame) (src : List Nat)
  | panicked
deriving DecidableEq, Repr

/-- Mirrors `CanFrameCodec::decode` (src/frame.rs lines 46-77).  With fewer
than 5 bytes buffered, return `Ok(None)` leaving the buffer untouched.
Otherwise read the big-endian id word from the first 4 bytes and the length
byte at index 4 (`can_frame_default()` zeroes the 8-byte data array, hence
`List.replicate 8 0`).  If the RTR bit (bit 30, via
`IdFlags::from_bits_truncate(..).contains(IdFlags::RTR)`) is set, advance 5
bytes and classify the raw frame.  Otherwise require `5 + len` bytes (else
`Ok(None)`, buffer untouched — `reserve` only grows capacity); the copy
`can_frame.data[..len].copy_from_slice(..)` panics when `len > 8`; else the
payload bytes overwrite the zeroed prefix of the data array and the buffer is
advanced by `5 + len`. -/
def decode (src : List Nat) : DecodeResult :=
  if src.length < 5 then .noFrameYet src
  else if (beU32 (src.take 4)).testBit 30 then
    .frame (CanFrame.fromRaw ⟨beU32 (src.take 4), src.getD 4 0, List.replicate 8 0⟩)
      (src.drop 5)
  else if src.length < 5 + src.getD 4 0 then .noFrameYet src
  else if 8 < src.getD 4 0 then .panicked
  else .frame
    (CanFrame.fromRaw ⟨beU32 (src.take 4), src.getD 4 0,
      (src.drop 5).take (src.getD 4 0) ++ List.replicate (8 - src.getD 4 0) 0⟩)
    (src.drop (5 + src.getD 4 0))

theorem beU32_u32be (x : Nat) (h : x < 4294967296) : beU32 (u32be x) = x := by
  simp only [u32be, beU32, List.foldl]
  omega

/-- Every buffer of length at least five splits as five leading bytes plus a
tail. -/
theorem exists_five_cons (src : List Nat) (h : 5 ≤ src.length) :
    ∃ b0 b1 b2 b3 b4 rest, src = b0 :: b1 :: b2 :: b3 :: b4 :: rest := by
  match src with
  | b0 :: b1 :: b2 :: b3 :: b4 :: rest => exact ⟨b0, b1, b2, b3, b4, rest, rfl⟩
  | [] | [_] | [_, _] | [_, _, _] | [_, _, _, _] => simp at h

/-- Computation rule for `decode` on a buffer with at least five bytes made
explicit. -/
theorem decode_cons (b0 b1 b2 b3 b4 : Nat) (rest : List Nat) :
    decode (b0 :: b1 :: b2 :: b3 :: b4 :: rest) =
      if (beU32 [b0, b1, b2, b3]).testBit 30 then
        .frame (CanFrame.fromRaw ⟨beU32 [b0, b1, b2, b3], b4, List.replicate 8 0⟩) rest
      else if rest.length < b4 then .noFrameYet (b0 :: b1 :: b2 :: b3 :: b4 :: rest)
      else if 8 < b4 then .panicked
      else .frame
        (CanFrame.fromRaw ⟨beU32 [b0, b1, b2, b3], b4,
          rest.take b4 ++ List.replicate (8 - b4) 0⟩)
        (rest.drop b4) := by
  have htake : (b0 :: b1 :: b2 :: b3 :: b4 :: rest).take 4 = [b0, b1, b2, b3] := rfl
  have hget : (b0 :: b1 :: b2 :: b3 :: b4 :: rest).getD 4 0 = b4 := rfl
  have hd5 : (b0 :: b1 :: b2 :: b3 :: b4 :: rest).drop 5 = rest := rfl
  have hlen : (b0 :: b1 :: b2 :: b3 :: b4 :: rest).length = rest.length + 5 := by
    simp only [List.length_cons]
  have hdrop : (b0 :: b1 :: b2 :: b3 :: b4 :: rest).drop (5 + b4) = rest.drop b4 := by
    rw [Nat.add_comm]
    rfl
  unfold decode
  rw [htake, hget, hd5, hlen, hdrop, if_neg (by omega)]
  by_cases hr : (beU32 [b0, b1, b2, b3]).testBit 30
  · rw [if_pos hr, if_pos hr]
  · rw [if_neg hr, if_neg hr]
    have hc : (rest.length + 5 < 5 + b4) ↔ (rest.length < b4) := by omega
    exact if_congr hc rfl rfl

/-- Outcome of one bus-socket or TCP-reader read: `Some(Ok(frame))` is
`some (.ok f)`, `Some(Err(e))` is `some .fault`, and stream end `None` is
`none` in `Option IoResult`. -/
inductive IoResult
  | ok (f : CanFrame)
  | fault
deriving DecidableEq, Repr

/-- One firing of the `tokio::select!` in `pump_frames` (src/main.rs lines
61-111): either the CAN socket's `next()` completed, or the TCP reader's
`next()` completed, each with its read outcome. -/
inductive PumpEvent
  | canNext (r : Option IoResult)
  | tcpNext (r : Option IoResult)
deriving DecidableEq, Repr

/-- Success or failure of the four fallible write-side operations of one loop
iteration (`tcp_writer.send`, `tcp_writer.flush`, `can_socket.send`,
`can_socket.flush`). -/
structure IoBehavior where
  tcpSendOk : Bool
  tcpFlushOk : Bool
  canSendOk : Bool
  canFlushOk : Bool
deriving DecidableEq, Repr

/-- Observable side effects of one iteration of the pump loop, in program
order. -/
inductive Action
  | tcpSend (f : CanFrame)
  | tcpFlush
  | canSend (f : CanFrame)
  | canFlush
  | logError
  | delay10ms
deriving DecidableEq, Repr

/-- Whether the loop body finished and looped back to the `select!`
(`running`), or hit the `todo!()` placeholder and panicked. -/
inductive StepOutcome
  | running
  | panicked
deriving DecidableEq, Repr

/-- Mirrors one iteration of the loop body of `pump_frames` (src/main.rs lines
61-111).  A successfully read CAN frame is sent to TCP then flushed, each
failure only logged (`if let Err(e) .. error!`).  A successfully decoded TCP
frame is sent to the CAN socket then flushed, each failure only logged, and
then `tokio::time::sleep(Duration::from_millis(10))` runs unconditionally.
A read error on either side is only logged.  Stream end (`None`) on either
side runs `todo!()`, a panic. -/
def pumpStep (beh : IoBehavior) (ev : PumpEvent) : StepOutcome × List Action :=
  match ev with
  | .canNext (some (.ok f)) =>
      (.running,
        [Action.tcpSend f] ++ (if beh.tcpSendOk then [] else [Action.logError])
          ++ [Action.tcpFlush] ++ (if beh.tcpFlushOk then [] else [Action.logError]))
  | .canNext (some .fault) => (.running, [Action.logError])
  | .canNext none => (.panicked, [])
  | .tcpNext (some (.ok f)) =>
      (.running,
        [Action.canSend f] ++ (if beh.canSendOk then [] else [Action.logError])
          ++ [Action.canFlush] ++ (if beh.canFlushOk then [] else [Action.logError])
          ++ [Action.delay10ms])
  | .tcpNext (some .fault) => (.running, [Action.logError])
  | .tcpNext none => (.panicked, [])

/-- Runs the pump loop over a sequence of select events, accumulating the
emitted actions and stopping early if an iteration panics. -/
def pumpRun (beh : IoBehavior) : List PumpEvent → StepOutcome × List Action
  | [] => (.running, [])
  | ev :: rest =>
      match pumpStep beh ev with
      | (.running, acts) =>
          ((pumpRun beh rest).1, acts ++ (pumpRun beh rest).2)
      | (.panicked, acts) => (.panicked, acts)

/-- Result of the startup phase of the `forward` driver, up to the point the
TCP connection is attempted. -/
inductive ForwardStep
  | connect (addr : Nat)
  | startupErr
  | panicked
deriving DecidableEq, Repr

/-- Mirrors the startup phase of `forward` (src/main.rs lines 114-127), with
socket addresses abstracted as `Nat`.  A failed `CanSocket::open` propagates
as an error via `?` (an orderly `startupErr`).  A failed name resolution hits
`.expect("unable to resolve domain")`, a panic.  A successful resolution is
indexed with `addrs[0]`, which panics on an empty vector; otherwise the first
resolved address is connected to. -/
def forwardStartup (canOpenOk : Bool) (resolved : Option (List Nat)) : ForwardStep :=
  if !canOpenOk then .startupErr
  else
    match resolved with
    | none => .panicked
    | some [] => .panicked
    | some (a :: _) => .connect a

theorem fromRaw_error (f : can_frame) (h29 : f.can_id.testBit 29 = true) :
    CanFrame.fromRaw f = .Error f := by
  simp [CanFrame.fromRaw, h29]

theorem fromRaw_remote (f : can_frame) (h29 : f.can_id.testBit 29 = false)
    (h30 : f.can_id.testBit 30 = true) : CanFrame.fromRaw f = .Remote f := by
  simp [CanFrame.fromRaw, h29, h30]

theorem fromRaw_data (f : can_frame) (h29 : f.can_id.testBit 29 = false)
    (h30 : f.can_id.testBit 30 = false) : CanFrame.fromRaw f = .Data f := by
  simp [CanFrame.fromRaw, h29, h30]

/-- C1: for every well-formed data frame (id word a u32 with the remote and
error flags clear, payload length 0-8, 8-byte data array), decoding the bytes
produced by encode yields a data frame with the same identifier, extended
flag and payload; and the standard-id frame with identifier 10 and payload
[1,2,3] encodes to exactly 00 00 00 0A 03 01 02 03 and decodes back to
identifier 10 and payload [1,2,3]. -/
theorem data_frame_roundtrip (f : can_frame)
    (h32 : f.can_id < 4294967296)
    (hrtr : f.can_id.testBit 30 = false)
    (herr : f.can_id.testBit 29 = false)
    (hdlc : f.can_dlc ≤ 8)
    (hlen : f.data.length = 8) :
    (∃ (bs : List Nat) (g : can_frame),
      encode (.Data f) [] = .ok bs ∧
      decode bs = .frame (.Data g) [] ∧
      g.identifier = f.identifier ∧ g.extended = f.extended ∧
      g.can_id = f.can_id ∧ g.can_dlc = f.can_dlc ∧
      g.data.take g.can_dlc = f.data.take f.can_dlc) ∧
    encode (.Data ⟨10, 3, [1, 2, 3, 0, 0, 0, 0, 0]⟩) [] = .ok [0, 0, 0, 10, 3, 1, 2, 3] ∧
    (∃ g : can_frame,
      decode [0, 0, 0, 10, 3, 1, 2, 3] = .frame (.Data g) [] ∧
      g.identifier = 10 ∧ g.extended = false ∧ g.data.take g.can_dlc = [1, 2, 3]) := by
  have hb : f.can_dlc % 256 = f.can_dlc := Nat.mod_eq_of_lt (by omega)
  have hplen : (f.data.take f.can_dlc).length = f.can_dlc := by
    rw [List.length_take, hlen]
    omega
  refine ⟨⟨u32be f.can_id ++ f.can_dlc % 256 :: f.data.take f.can_dlc,
    ⟨f.can_id, f.can_dlc, f.data.take f.can_dlc ++ List.replicate (8 - f.can_dlc) 0⟩,
    rfl, ?_, rfl, rfl, rfl, rfl, ?_⟩, by decide,
    ⟨⟨10, 3, [1, 2, 3, 0, 0, 0, 0, 0]⟩, by decide, by decide, by decide, by decide⟩⟩
  · have hshape : u32be f.can_id ++ f.can_dlc % 256 :: f.data.take f.can_dlc
        = (f.can_id / 16777216 % 256) :: (f.can_id / 65536 % 256) :: (f.can_id / 256 % 256)
          :: (f.can_id % 256) :: (f.can_dlc % 256) :: f.data.take f.can_dlc := rfl
    have hid : beU32 [f.can_id / 16777216 % 256, f.can_id / 65536 % 256,
        f.can_id / 256 % 256, f.can_id % 256] = f.can_id := beU32_u32be f.can_id h32
    rw [hshape, decode_cons, hid, hb]
    rw [if_neg (by simp [hrtr])]
    rw [if_neg (by rw [hplen]; omega)]
    rw [if_neg (by omega)]
    rw [List.take_of_length_le (le_of_eq hplen),
      List.drop_eq_nil_of_le (le_of_eq hplen)]
    rw [fromRaw_data ⟨f.can_id, f.can_dlc,
      f.data.take f.can_dlc ++ List.replicate (8 - f.can_dlc) 0⟩ herr hrtr]
  · exact List.take_left' hplen

/-- C2 counterexample: the five bytes 60 00 00 0A 03 have both the remote flag
(bit 30) and the error flag (bit 29) set in the id word; decode consumes them
but produces an Error frame, not a Remote frame. -/
theorem remote_error_flag_decodes_error :
    decode [96, 0, 0, 10, 3] =
      DecodeResult.frame (.Error ⟨1610612746, 3, List.replicate 8 0⟩) [] := by decide

/-- C2 (amended): encoding Remote{identifier=10, requested_length=3} yields
exactly 40 00 00 0A 03; for every buffer whose id word has the remote flag
set, decode consumes exactly 5 bytes regardless of the length byte and of
trailing bytes; if the error flag is clear the result is a Remote frame whose
requested length is the length byte and whose identifier accessor masks the
id word to 29 or 11 bits per the extended flag (with the error flag also set,
an Error frame is produced instead, still from exactly 5 bytes). -/
theorem remote_frame_decode (src : List Nat) (h5 : 5 ≤ src.length)
    (hrtr : (beU32 (src.take 4)).testBit 30 = true) :
    (∃ g : CanFrame, decode src = .frame g (src.drop 5)) ∧
    ((beU32 (src.take 4)).testBit 29 = false →
      decode src = .frame
        (.Remote ⟨beU32 (src.take 4), src.getD 4 0, List.replicate 8 0⟩) (src.drop 5)) ∧
    can_frame.identifier ⟨beU32 (src.take 4), src.getD 4 0, List.replicate 8 0⟩ =
      (if (beU32 (src.take 4)).testBit 31 then beU32 (src.take 4) % 536870912
       else beU32 (src.take 4) % 2048) ∧
    encode (.Remote ⟨1073741834, 3, List.replicate 8 0⟩) [] = .ok [64, 0, 0, 10, 3] := by
  obtain ⟨b0, b1, b2, b3, b4, tl, rfl⟩ := exists_five_cons src h5
  have hrtr' : (beU32 [b0, b1, b2, b3]).testBit 30 = true := hrtr
  refine ⟨⟨CanFrame.fromRaw ⟨beU32 [b0, b1, b2, b3], b4, List.replicate 8 0⟩, ?_⟩,
    ?_, rfl, by decide⟩
  · rw [decode_cons, if_pos hrtr']
    rfl
  · intro herr
    have herr' : (beU32 [b0, b1, b2, b3]).testBit 29 = false := herr
    rw [decode_cons, if_pos hrtr',
      fromRaw_remote ⟨beU32 [b0, b1, b2, b3], b4, List.replicate 8 0⟩ herr' hrtr']
    rfl

/-- C3 counterexample: a complete non-remote buffer does not always yield a
Data frame advanced by 5+len — a length byte of 9 with all nine payload bytes
present makes decode panic on the out-of-bounds copy, and an error-flagged
header yields an Error frame. -/
theorem decode_complete_buffer_edge_cases :
    decode [0, 0, 0, 10, 9, 1, 2, 3, 4, 5, 6, 7, 8, 9] = DecodeResult.panicked ∧
    decode [32, 0, 0, 10, 0] =
      DecodeResult.frame (.Error ⟨536870922, 0, List.replicate 8 0⟩) [] := by decide

/-- C3 (amended): decode on fewer than 5 bytes, or on a non-remote header
with fewer than its declared 5+len bytes, returns no-frame-yet with the
buffer contents unchanged, and decoding again the unchanged buffer returns
the same result; once at least 5+len bytes are present — with the length
byte at most 8 and the error flag clear — decode produces the Data frame and
advances the buffer exactly 5+len bytes from the original start. -/
theorem decode_partial_stability :
    (∀ src : List Nat, src.length < 5 → decode src = .noFrameYet src) ∧
    (∀ src : List Nat, 5 ≤ src.length → (beU32 (src.take 4)).testBit 30 = false →
      src.length < 5 + src.getD 4 0 → decode src = .noFrameYet src) ∧
    (∀ src r : List Nat, decode src = .noFrameYet r → r = src ∧ decode r = decode src) ∧
    (∀ src : List Nat, 5 ≤ src.length →
      (beU32 (src.take 4)).testBit 30 = false →
      (beU32 (src.take 4)).testBit 29 = false →
      src.getD 4 0 ≤ 8 → 5 + src.getD 4 0 ≤ src.length →
      decode src = .frame
        (.Data ⟨beU32 (src.take 4), src.getD 4 0,
          (src.drop 5).take (src.getD 4 0) ++ List.replicate (8 - src.getD 4 0) 0⟩)
        (src.drop (5 + src.getD 4 0))) := by
  refine ⟨?_, ?_, ?_, ?_⟩
  · intro src h
    unfold decode
    rw [if_pos h]
  · intro src h5 hrtr hlt
    obtain ⟨b0, b1, b2, b3, b4, tl, rfl⟩ := exists_five_cons src h5
    have hrtr' : (beU32 [b0, b1, b2, b3]).testBit 30 = false := hrtr
    have hlt' : tl.length + 5 < 5 + b4 := hlt
    rw [decode_cons, if_neg (by simp [hrtr']), if_pos (by omega)]
  · intro src r h
    by_cases h5 : src.length < 5
    · unfold decode at h
      rw [if_pos h5] at h
      injection h with h'
      exact ⟨h'.symm, by rw [h']⟩
    · obtain ⟨b0, b1, b2, b3, b4, tl, rfl⟩ := exists_five_cons src (by omega)
      rw [decode_cons] at h
      split at h
      · cases h
      · split at h
        · injection h with h'
          exact ⟨h'.symm, by rw [h']⟩
        · split at h
          · cases h
          · cases h
  · intro src h5 hrtr herr h8 hav
    obtain ⟨b0, b1, b2, b3, b4, tl, rfl⟩ := exists_five_cons src h5
    have hrtr' : (beU32 [b0, b1, b2, b3]).testBit 30 = false := hrtr
    have herr' : (beU32 [b0, b1, b2, b3]).testBit 29 = false := herr
    have h8' : b4 ≤ 8 := h8
    have hav' : 5 + b4 ≤ tl.length + 5 := hav
    rw [decode_cons, if_neg (by simp [hrtr']), if_neg (by omega), if_neg (by omega),
      fromRaw_data ⟨beU32 [b0, b1, b2, b3], b4, tl.take b4 ++ List.replicate (8 - b4) 0⟩
        herr' hrtr']
    show _ = DecodeResult.frame
      (.Data ⟨beU32 [b0, b1, b2, b3], b4, tl.take b4 ++ List.replicate (8 - b4) 0⟩)
      ((b0 :: b1 :: b2 :: b3 :: b4 :: tl).drop (5 + b4))
    rw [Nat.add_comm 5 b4]
    rfl

/-- C1 witness: the round-trip theorem instantiated at the standard-identifier
frame with identifier 10 and payload [1,2,3]. -/
theorem data_frame_roundtrip_witness :
    (∃ (bs : List Nat) (g : can_frame),
      encode (.Data ⟨10, 3, [1, 2, 3, 0, 0, 0, 0, 0]⟩) [] = .ok bs ∧
      decode bs = .frame (.Data g) [] ∧
      g.identifier = can_frame.identifier ⟨10, 3, [1, 2, 3, 0, 0, 0, 0, 0]⟩ ∧
      g.extended = can_frame.extended ⟨10, 3, [1, 2, 3, 0, 0, 0, 0, 0]⟩ ∧
      g.can_id = 10 ∧ g.can_dlc = 3 ∧
      g.data.take g.can_dlc = List.take 3 [1, 2, 3, 0, 0, 0, 0, 0]) ∧
    encode (.Data ⟨10, 3, [1, 2, 3, 0, 0, 0, 0, 0]⟩) [] = .ok [0, 0, 0, 10, 3, 1, 2, 3] ∧
    (∃ g : can_frame,
      decode [0, 0, 0, 10, 3, 1, 2, 3] = .frame (.Data g) [] ∧
      g.identifier = 10 ∧ g.extended = false ∧ g.data.take g.can_dlc = [1, 2, 3]) :=
  data_frame_roundtrip ⟨10, 3, [1, 2, 3, 0, 0, 0, 0, 0]⟩
    (by decide) (by decide) (by decide) (by decide) (by decide)

/-- C2 witness: the amended remote-decode theorem instantiated at the buffer
40 00 00 0A 07 09 09, whose length byte (7) and trailing bytes (09 09) are
ignored: exactly 5 bytes are consumed and a Remote frame with requested
length 7 comes back. -/
theorem remote_frame_decode_witness :
    (∃ g : CanFrame, decode [64, 0, 0, 10, 7, 9, 9] = .frame g [9, 9]) ∧
    decode [64, 0, 0, 10, 7, 9, 9] =
      .frame (.Remote ⟨1073741834, 7, List.replicate 8 0⟩) [9, 9] := by
  have h := remote_frame_decode [64, 0, 0, 10, 7, 9, 9] (by decide) (by decide)
  exact ⟨h.1, h.2.1 (by decide)⟩

/-- C3 witness: the partial-frame stability theorem instantiated at a 4-byte
buffer, at a header declaring 3 payload bytes with only one present, and at
the completed buffer followed by one unrelated trailing byte. -/
theorem decode_partial_stability_witness :
    decode [0, 0, 0, 10] = .noFrameYet [0, 0, 0, 10] ∧
    decode [0, 0, 0, 10, 3, 1] = .noFrameYet [0, 0, 0, 10, 3, 1] ∧
    ([0, 0, 0, 10, 3, 1] = [0, 0, 0, 10, 3, 1] ∧
      decode [0, 0, 0, 10, 3, 1] = decode [0, 0, 0, 10, 3, 1]) ∧
    decode [0, 0, 0, 10, 3, 1, 2, 3, 9] =
      .frame (.Data ⟨10, 3, [1, 2, 3, 0, 0, 0, 0, 0]⟩) [9] := by
  have h := decode_partial_stability
  refine ⟨h.1 [0, 0, 0, 10] (by decide),
    h.2.1 [0, 0, 0, 10, 3, 1] (by decide) (by decide) (by decide),
    h.2.2.1 [0, 0, 0, 10, 3, 1] [0, 0, 0, 10, 3, 1]
      (h.2.1 [0, 0, 0, 10, 3, 1] (by decide) (by decide) (by decide)), ?_⟩
  exact h.2.2.2 [0, 0, 0, 10, 3, 1, 2, 3, 9]
    (by decide) (by decide) (by decide) (by decide) (by decide)

/-- C4: when either stream signals clean end-of-stream (`next()` returns
`None`), the pump-loop iteration hits the `todo!()` placeholder and panics; it
does not perform an orderly return (spec §4.2 and §9 flag this as the
unimplemented `Closed` transition). -/
theorem pump_stream_end_panics :
    ∀ beh : IoBehavior,
      pumpStep beh (.canNext none) = (.panicked, []) ∧
      pumpStep beh (.tcpNext none) = (.panicked, []) :=
  fun _ => ⟨rfl, rfl⟩

/-- C5: encoding an `Error`-variant frame executes `todo!()` — a panic — and
never returns an error result nor appends bytes to the output buffer. -/
theorem encode_error_frame_panics :
    ∀ (e : can_frame) (dst : List Nat), encode (.Error e) dst = .panicked :=
  fun _ _ => rfl

/-- C6: with the error flag (bit 29) set and the remote flag (bit 30) clear in
the id word, decode never returns an ordinary Data frame: classification via
`CanFrame::from` turns the error-flagged raw frame into an Error frame. -/
theorem error_flag_never_data (src : List Nat)
    (herr : (beU32 (src.take 4)).testBit 29 = true)
    (hrtr : (beU32 (src.take 4)).testBit 30 = false) :
    ∀ (g : can_frame) (rest : List Nat), decode src ≠ .frame (.Data g) rest := by
  intro g rest h
  by_cases h5 : src.length < 5
  · unfold decode at h
    rw [if_pos h5] at h
    cases h
  · obtain ⟨b0, b1, b2, b3, b4, tl, rfl⟩ := exists_five_cons src (by omega)
    have herr' : (beU32 [b0, b1, b2, b3]).testBit 29 = true := herr
    have hrtr' : (beU32 [b0, b1, b2, b3]).testBit 30 = false := hrtr
    rw [decode_cons, if_neg (by simp [hrtr'])] at h
    by_cases hl : tl.length < b4
    · rw [if_pos hl] at h
      cases h
    · rw [if_neg hl] at h
      by_cases h8 : 8 < b4
      · rw [if_pos h8] at h
        cases h
      · rw [if_neg h8] at h
        rw [fromRaw_error ⟨beU32 [b0, b1, b2, b3], b4,
          tl.take b4 ++ List.replicate (8 - b4) 0⟩ herr'] at h
        simp at h

/-- C6 witness: the error-flagged buffer 20 00 00 01 00 is not decoded as any
Data frame. -/
theorem error_flag_never_data_witness :
    decode [32, 0, 0, 1, 0] ≠ DecodeResult.frame (.Data ⟨0, 0, []⟩) [] :=
  error_flag_never_data [32, 0, 0, 1, 0] (by decide) (by decide) ⟨0, 0, []⟩ []

/-- C7 counterexample: an iteration in which the bus send and flush both fail
still performs the 10 ms post-send delay, so the delay is not restricted to
successful sends. -/
theorem delay_after_failed_send :
    Action.delay10ms ∈
      (pumpStep ⟨true, true, false, false⟩
        (.tcpNext (some (.ok (.Data ⟨10, 3, [1, 2, 3, 0, 0, 0, 0, 0]⟩))))).2 := by
  decide

/-- C7 (amended): the fixed 10 ms delay is applied after handling every
successfully decoded TCP frame — whether or not the bus send or flush
succeeded — and is applied on no other kind of loop event. -/
theorem delay_exactly_after_tcp_frame :
    (∀ (beh : IoBehavior) (f : CanFrame),
      Action.delay10ms ∈ (pumpStep beh (.tcpNext (some (.ok f)))).2) ∧
    (∀ (beh : IoBehavior) (ev : PumpEvent),
      (∀ f : CanFrame, ev ≠ .tcpNext (some (.ok f))) →
      Action.delay10ms ∉ (pumpStep beh ev).2) := by
  constructor
  · intro beh f
    simp [pumpStep]
  · intro beh ev h
    match ev with
    | .canNext (some (.ok f)) =>
        cases hb1 : beh.tcpSendOk <;> cases hb2 : beh.tcpFlushOk <;>
          simp [pumpStep, hb1, hb2]
    | .canNext (some .fault) => simp [pumpStep]
    | .canNext none => simp [pumpStep]
    | .tcpNext (some (.ok f)) => exact absurd rfl (h f)
    | .tcpNext (some .fault) => simp [pumpStep]
    | .tcpNext none => simp [pumpStep]

/-- C7 witness: the delay fires on a successfully forwarded TCP frame and does
not fire on a CAN-side event. -/
theorem delay_exactly_after_tcp_frame_witness :
    Action.delay10ms ∈
      (pumpStep ⟨true, true, true, true⟩
        (.tcpNext (some (.ok (.Data ⟨10, 0, List.replicate 8 0⟩))))).2 ∧
    Action.delay10ms ∉ (pumpStep ⟨true, true, true, true⟩ (.canNext (some .fault))).2 :=
  ⟨delay_exactly_after_tcp_frame.1 ⟨true, true, true, true⟩ (.Data ⟨10, 0, List.replicate 8 0⟩),
   delay_exactly_after_tcp_frame.2 ⟨true, true, true, true⟩ (.canNext (some .fault))
     (fun _ h => nomatch h)⟩

/-- C8: a single transient I/O fault never terminates the pump session — a
failed bus or TCP read is only logged and the loop keeps running; failed
sends or flushes while forwarding a frame also leave the loop running; and
after a bus-read fault a subsequent successful bus read is still forwarded to
TCP. -/
theorem transient_fault_continues :
    (∀ beh : IoBehavior, pumpStep beh (.canNext (some .fault)) = (.running, [Action.logError])) ∧
    (∀ beh : IoBehavior, pumpStep beh (.tcpNext (some .fault)) = (.running, [Action.logError])) ∧
    (∀ (beh : IoBehavior) (f : CanFrame), (pumpStep beh (.canNext (some (.ok f)))).1 = .running) ∧
    (∀ (beh : IoBehavior) (f : CanFrame), (pumpStep beh (.tcpNext (some (.ok f)))).1 = .running) ∧
    (∀ (beh : IoBehavior) (f : CanFrame),
      (pumpRun beh [.canNext (some .fault), .canNext (some (.ok f))]).1 = .running ∧
      Action.tcpSend f ∈ (pumpRun beh [.canNext (some .fault), .canNext (some (.ok f))]).2) := by
  refine ⟨fun _ => rfl, fun _ => rfl, fun _ _ => rfl, fun _ _ => rfl, fun beh f => ⟨?_, ?_⟩⟩
  · simp [pumpRun, pumpStep]
  · simp [pumpRun, pumpStep]

/-- C9: a non-remote header whose length byte exceeds 8, once at least 5+len
bytes are buffered, makes decode panic on the out-of-bounds copy into the
fixed 8-byte payload array; decode is not total over such inputs. -/
theorem decode_oversize_len_panics (src : List Nat) (h5 : 5 ≤ src.length)
    (hrtr : (beU32 (src.take 4)).testBit 30 = false)
    (hlen : 8 < src.getD 4 0) (hav : 5 + src.getD 4 0 ≤ src.length) :
    decode src = .panicked := by
  obtain ⟨b0, b1, b2, b3, b4, tl, rfl⟩ := exists_five_cons src h5
  have hrtr' : (beU32 [b0, b1, b2, b3]).testBit 30 = false := hrtr
  have hlen' : 8 < b4 := hlen
  have hav' : 5 + b4 ≤ tl.length + 5 := hav
  rw [decode_cons, if_neg (by simp [hrtr']), if_neg (by omega), if_pos hlen']

/-- C9 witness: a zero id word with length byte 9 and nine payload bytes
buffered panics. -/
theorem decode_oversize_len_panics_witness :
    decode [0, 0, 0, 0, 9, 1, 2, 3, 4, 5, 6, 7, 8, 9] = DecodeResult.panicked :=
  decode_oversize_len_panics [0, 0, 0, 0, 9, 1, 2, 3, 4, 5, 6, 7, 8, 9]
    (by decide) (by decide) (by decide) (by decide)

/-- C10: in forward mode, when the CAN socket opened but resolving the
destination yields an empty address list, the driver panics at `addrs[0]`
rather than returning a startup error; a non-empty list proceeds to connect
to its first address. -/
theorem forward_empty_resolve_panics :
    forwardStartup true (some []) = ForwardStep.panicked ∧
    ∀ (a : Nat) (rest : List Nat), forwardStartup true (some (a :: rest)) = ForwardStep.connect a :=
  ⟨rfl, fun _ _ => rfl⟩

end Cancomms
